import Mathlib

/-!
Verification of the routing-decision core of a packet-switched network
simulator (ring / torus / star topologies, greedy-channel and greedy-path
strategies).  The Python source in `complex_topologies.py` is embedded
shallowly: each Python function becomes a Lean function over explicit data,
Python `int` becomes `Int`, Python lists become `List`, dictionaries become
association lists in insertion order, the `random.randint` source becomes an
explicit oracle parameter `rand : Nat → Nat → Nat` (Python's `randint(a, b)`
is inclusive of both ends), and operations that can raise (`IndexError`,
`KeyError`) return `Except Unit`.
-/

/-! ## Distance metrics -/

/-- Embedding of `GreedyChannelRing.get_distance` (complex_topologies.py,
lines 46-72).  `k` is `len(self._nodes)`; the two addresses are Python ints. -/
def ring_get_distance (k : Nat) (n1 n2 : Int) : Int :=
  if n1 = n2 then 0
  else
    let ld_rd : Int × Int :=
      if n2 > n1 then ((k : Int) - (n2 - n1), n2 - n1)
      else (n2 - n1, (k : Int) - (n2 - n1))
    if ld_rd.1 ≥ ld_rd.2 then ld_rd.2 else ld_rd.1

/-- The ring distance as the spec words it (spec §4.1): the smaller of the two
arc lengths, `min(|b−a|, k−|b−a|)`.  This definition follows the SPEC, to be
compared against `ring_get_distance` which follows the source. -/
def ring_distance_spec (k : Nat) (a b : Int) : Int :=
  min |b - a| ((k : Int) - |b - a|)

/-- Embedding of `GreedyChannelTorus.get_ring_distance` (complex_topologies.py,
lines 129-147).  Note that the source sets `k = len(self._nodes)`, the TOTAL
number of nodes of the torus, and uses it as the modulus for a single axis. -/
def torus_get_ring_distance (k : Nat) (n1 n2 : Int) : Int :=
  if n1 = n2 then 0
  else
    let ld_rd : Int × Int :=
      if n2 > n1 then (|(k : Int) - (n2 - n1)|, |n2 - n1|)
      else (|n2 - n1|, |(k : Int) - (n2 - n1)|)
    if ld_rd.1 ≥ ld_rd.2 then ld_rd.2 else ld_rd.1

/-- Embedding of `GreedyChannelTorus.get_distance` (complex_topologies.py,
lines 111-127).  `numNodes` is `len(self._nodes)`, i.e. the total number of
nodes of the torus; both axis distances are computed with it. -/
def torus_get_distance (numNodes : Nat) (p1 p2 : Int × Int) : Int :=
  torus_get_ring_distance numNodes p1.1 p2.1 +
    torus_get_ring_distance numNodes p1.2 p2.2

/-- Hub detection as coded in `GreedyChannelStar.get_distance`
(complex_topologies.py, lines 196-202): `degrees` is the list of
`len(node.channels)` over `self._nodes.values()` in address order; `k1`
counts the nodes whose channel count equals `len(self._nodes) - 1`. -/
def starHubCount (degrees : List Nat) : Nat :=
  (degrees.filter fun d => decide (d = degrees.length - 1)).length

/-- Embedding of `GreedyChannelStar.get_distance` (complex_topologies.py,
lines 186-210): 0 when the addresses coincide, 1 when either address lies in
`range(k1)` (Python membership of an int in `range(k1)` means
`0 ≤ n < k1`), else 2. -/
def star_get_distance (degrees : List Nat) (n1 n2 : Int) : Nat :=
  if n1 = n2 then 0
  else if (0 ≤ n2 ∧ n2 < (starHubCount degrees : Int)) ∨
      (0 ≤ n1 ∧ n1 < (starHubCount degrees : Int)) then 1
  else 2

/-- Modelled from the spec: the star network construction (`AbstractStar` in
`a3_part1`) is not under `src/`.  Per the spec (§2, §3, §4.1), a star
network has `k1` hub nodes — each directly connected to every other node —
at the low addresses `0..k1-1`, and `k2` spoke nodes at addresses
`k1..k1+k2-1`; since every hub is connected to every node, each spoke has
exactly the `k1` hubs as neighbours.  `starDegrees k1 k2` is the per-node
channel-count list in address order. -/
def starDegrees (k1 k2 : Nat) : List Nat :=
  List.replicate k1 (k1 + k2 - 1) ++ List.replicate k2 k1

/-- A node is a hub iff its channel count equals the total node count
minus 1 (spec §4.1). -/
def isHubAt (degrees : List Nat) (a : Nat) : Prop :=
  degrees[a]? = some (degrees.length - 1)

/-! ## The shared two-stage selection with randomized tie-break

Both `greedy_channel_select` (lines 214-247) and `greedy_path_select`
(lines 338-370) have the same shape: a scan computing `min_score` and a
secondary minimum, one `for x in lst: lst.remove(x)` filtering pass per
stage, and a final `random.randint(0, len(lst))` tie-break.  We embed the
shape once, parametrised by the score and the secondary key, and instantiate
it for both functions.

A CPython `for` loop over a list keeps a cursor index: it checks the index
against the CURRENT length, yields the element there, and bumps the index;
`list.remove(x)` deletes the first element equal to `x`.  `pyRemoveAux`
models exactly this.  The fuel `lst.length` bounds the iteration count: the
cursor rises by one per step and the loop stops once it reaches the (never
increasing) length, so at most `lst.length` iterations happen and when the
fuel runs out the cursor is already past the end. -/

/-- One `for x in lst: if p x: lst.remove(x)` loop in CPython semantics:
`i` is the iterator's cursor into the mutating list. -/
def pyRemoveAux [DecidableEq β] (p : β → Bool) : Nat → List β → Nat → List β
  | 0, lst, _ => lst
  | fuel + 1, lst, i =>
    if h : i < lst.length then
      let x := lst.get ⟨i, h⟩
      if p x then pyRemoveAux p fuel (lst.erase x) (i + 1)
      else pyRemoveAux p fuel lst (i + 1)
    else lst

/-- Run the remove-while-iterating loop from cursor 0. -/
def pyRemoveLoop [DecidableEq β] (p : β → Bool) (lst : List β) : List β :=
  pyRemoveAux p lst.length lst 0

/-- The initial scan of both selectors: `min_score` is updated whenever a
strictly smaller score is seen, and the secondary minimum is updated only
INSIDE that branch (source lines 229-235 and 352-358, where the
`if d < min_dist` / `if length < min_len` test is nested under
`if score < min_score`). -/
def selectScan (score key : β → Int) : List β → Int × Int → Int × Int
  | [], st => st
  | b :: rest, (minScore, minKey) =>
    let s := score b
    if s < minScore then
      selectScan score key rest (s, if key b < minKey then key b else minKey)
    else
      selectScan score key rest (minScore, minKey)

/-- The `(min_score, min_dist)` / `(min_score, min_len)` pair: both running
minima start from element 0 of the list (source lines 227-228 / 350-351). -/
def selectMS (score key : β → Int) (b0 : β) (lst : List β) : Int × Int :=
  selectScan score key lst (score b0, key b0)

/-- The first filtering pass: remove, in place, every element whose score
differs from `min_score` (source lines 236-239 / 359-362). -/
def stageOne [DecidableEq β] (score key : β → Int) (b0 : β) (lst : List β) :
    List β :=
  pyRemoveLoop (fun b => decide (score b ≠ (selectMS score key b0 lst).1)) lst

/-- The list left in the `channels` / `paths` variable after both filtering
passes; the second pass (remove elements whose secondary key differs from
the scanned secondary minimum) only runs when more than one element survived
the first (source lines 240-243 / 363-366). -/
def selectFiltered [DecidableEq β] (score key : β → Int) (b0 : β)
    (lst : List β) : List β :=
  if 1 < (stageOne score key b0 lst).length then
    pyRemoveLoop
      (fun b => decide (key b ≠ (selectMS score key b0 lst).2))
      (stageOne score key b0 lst)
  else stageOne score key b0 lst

/-- The whole selector body: returns the final state of the list variable
together with the outcome.  An empty input raises at `lst[0]` (line 227 /
350).  When more than one candidate remains, `index = random.randint(0, n)`
is drawn with INCLUSIVE upper bound `n = len(lst)` (line 245 / 368), so
`lst[index]` raises `IndexError` when the oracle returns `n`.  Otherwise the
head of the surviving list is returned (line 247 / 370). -/
def pySelectCore [DecidableEq β] (score key : β → Int)
    (rand : Nat → Nat → Nat) : List β → List β × Except Unit β
  | [] => ([], .error ())
  | b0 :: rest =>
    (selectFiltered score key b0 (b0 :: rest),
      if _h : 1 < (selectFiltered score key b0 (b0 :: rest)).length then
        if h2 : rand 0 (selectFiltered score key b0 (b0 :: rest)).length <
            (selectFiltered score key b0 (b0 :: rest)).length then
          .ok ((selectFiltered score key b0 (b0 :: rest)).get
            ⟨rand 0 (selectFiltered score key b0 (b0 :: rest)).length, h2⟩)
        else .error ()
      else
        match (selectFiltered score key b0 (b0 :: rest)).head? with
        | none => .error ()
        | some b => .ok b)

/-- The selector's outcome alone. -/
def pySelect [DecidableEq β] (score key : β → Int) (rand : Nat → Nat → Nat)
    (lst : List β) : Except Unit β :=
  (pySelectCore score key rand lst).2

/-- Embedding of `greedy_channel_select` (complex_topologies.py, lines
214-247).  Candidates are `(d, channel)` pairs; the channel type `C` is
abstract with `occ` giving `channel.total_occupancy()`; the score is
`d + occ channel` and the secondary key the raw distance `d`. -/
def greedy_channel_select [DecidableEq C] (occ : C → Int)
    (rand : Nat → Nat → Nat) (channels : List (Int × C)) : Except Unit C :=
  Except.map (fun dc => dc.2)
    (pySelect (fun dc => dc.1 + occ dc.2) (fun dc => dc.1) rand channels)

/-- Embedding of `compute_path_score`, the per-hop penalty sum
`Σ_i max(occupancy(c_i) - i, 0)` accumulated from hop index `i`
(complex_topologies.py, lines 383-386). -/
def pathPenalty (occ : C → Int) : Nat → List C → Int
  | _, [] => 0
  | i, c :: rest => max (occ c - (i : Int)) 0 + pathPenalty occ (i + 1) rest

/-- Embedding of `compute_path_score` (complex_topologies.py, lines
374-387): `k + score` where `k = len(path)`. -/
def compute_path_score (occ : C → Int) (path : List C) : Int :=
  (path.length : Int) + pathPenalty occ 0 path

/-- Embedding of `greedy_path_select` (complex_topologies.py, lines
338-370): score is `compute_path_score`, secondary key the path length, and
the returned value is the FIRST channel `p[0]` of the selected path (an
empty selected path would raise at the indexing). -/
def greedy_path_select [DecidableEq C] (occ : C → Int)
    (rand : Nat → Nat → Nat) (paths : List (List C)) : Except Unit C :=
  match pySelect (compute_path_score occ) (fun p => (p.length : Int)) rand
      paths with
  | .error e => .error e
  | .ok p =>
    match p with
    | [] => .error ()
    | c :: _ => .ok c

/-! ## Network model and `route_packet`

Modelled from the spec: the classes `Channel`, `Node`, `Packet`
(`a3_network`) and the network node dictionary (`a3_part1`) are not under
`src/`.  Per spec §3 and §6, a channel is an undirected link between two
addresses carrying a non-negative occupancy; a node holds a dictionary from
neighbour address to the connecting channel; a packet carries a source, a
destination and an identity (only the destination is read); a network holds
a dictionary from address to node.  Dictionaries become association lists in
insertion order; `total_occupancy()` is the `occupancy` read accessor. -/

structure Channel (α : Type) where
  ep1 : α
  ep2 : α
  occupancy : Nat
deriving DecidableEq

structure Node (α : Type) where
  channels : List (α × Channel α)
deriving DecidableEq

structure Packet (α : Type) where
  source : α
  destination : α
deriving DecidableEq

structure Network (α : Type) where
  nodes : List (α × Node α)
deriving DecidableEq

/-- A channel has the node at address `a` as one of its endpoints. -/
def ChannelIncident [DecidableEq α] (c : Channel α) (a : α) : Prop :=
  c.ep1 = a ∨ c.ep2 = a

/-- Well-formedness of the externally constructed network (spec §3, §6): the
channel a node stores under a neighbour's address is the undirected link
between that node's address and the neighbour. -/
def Network.validB [DecidableEq α] (net : Network α) : Bool :=
  net.nodes.all fun an =>
    an.2.channels.all fun nc =>
      decide ((nc.2.ep1 = an.1 ∧ nc.2.ep2 = nc.1) ∨
        (nc.2.ep1 = nc.1 ∧ nc.2.ep2 = an.1))

/-- Embedding of the candidate-building loop shared by the three
`GreedyChannel*` `route_packet` bodies (complex_topologies.py, lines 34-42):
for each neighbour address of the current node, look the neighbour node up
in `self._nodes` (a missing key raises), fetch `node.channels[
current_address]` (a missing key raises), pair the channel with the
distance from the neighbour to the destination, and append. -/
def buildCandidates [DecidableEq α] (net : Network α) (current dest : α)
    (dist : α → α → Int) :
    List (α × Channel α) → Except Unit (List (Int × Channel α))
  | [] => .ok []
  | nb :: rest =>
    match net.nodes.lookup nb.1 with
    | none => .error ()
    | some node =>
      match node.channels.lookup current with
      | none => .error ()
      | some channel =>
        match buildCandidates net current dest dist rest with
        | .error e => .error e
        | .ok lst => .ok ((dist nb.1 dest, channel) :: lst)

/-- Embedding of the `GreedyChannel*` `route_packet` bodies
(complex_topologies.py, lines 15-44, 80-109, 155-184), which differ only in
the distance metric `dist` (`self.get_distance`): return `None` when the
current address equals the packet's destination, otherwise build the
candidate list over the current node's neighbours and select greedily. -/
def route_packet_channel [DecidableEq α] (net : Network α)
    (dist : α → α → Int) (rand : Nat → Nat → Nat) (current : α)
    (pkt : Packet α) : Except Unit (Option (Channel α)) :=
  if current = pkt.destination then .ok none
  else
    match net.nodes.lookup current with
    | none => .error ()
    | some currNode =>
      match buildCandidates net current pkt.destination dist
          currNode.channels with
      | .error e => .error e
      | .ok lst =>
        Except.map some
          (greedy_channel_select (fun c => (c.occupancy : Int)) rand lst)

/-- Embedding of the `GreedyPath*` `route_packet` bodies
(complex_topologies.py, lines 258-278, 286-306, 314-334): return `None`
when arrived, otherwise select greedily among `self.find_paths(current,
dest)`.  `find_paths` lives in `a3_part1`, not under `src/`, and is passed
in as the external path enumerator of spec §6. -/
def route_packet_path [DecidableEq α]
    (findPaths : α → α → List (List (Channel α))) (rand : Nat → Nat → Nat)
    (current : α) (pkt : Packet α) : Except Unit (Option (Channel α)) :=
  if current = pkt.destination then .ok none
  else
    Except.map some
      (greedy_path_select (fun c => (c.occupancy : Int)) rand
        (findPaths current pkt.destination))

deriving instance DecidableEq for Except

/-! ## Concrete networks

`ringNet4` is the 4-node ring 0-1-2-3-0 with one channel per edge, all
occupancies 0, and `ringDist4` its `GreedyChannelRing` distance metric; at
current address 1 with destination 3 both neighbours (0 and 2) are at
distance 1 from the destination, a tie.  `pairNet` is a 2-node network with
the single channel `chA`, used together with the constant-distance metric
`distZero` and the one-path enumerator `wFindPaths`. -/

def chA : Channel Nat := ⟨0, 1, 0⟩

def chB : Channel Nat := ⟨1, 2, 0⟩

def chC : Channel Nat := ⟨2, 3, 0⟩

def chD : Channel Nat := ⟨3, 0, 0⟩

def ringNet4 : Network Nat :=
  ⟨[(0, ⟨[(1, chA), (3, chD)]⟩), (1, ⟨[(0, chA), (2, chB)]⟩),
    (2, ⟨[(1, chB), (3, chC)]⟩), (3, ⟨[(2, chC), (0, chD)]⟩)]⟩

def ringDist4 : Nat → Nat → Int := fun a b =>
  ring_get_distance 4 (a : Int) (b : Int)

def cexPkt : Packet Nat := ⟨1, 3⟩

def pairNet : Network Nat := ⟨[(0, ⟨[(1, chA)]⟩), (1, ⟨[(0, chA)]⟩)]⟩

def wPkt : Packet Nat := ⟨0, 1⟩

def wPkt2 : Packet Nat := ⟨1, 0⟩

def wFindPaths : Nat → Nat → List (List (Channel Nat)) := fun _ _ => [[chA]]

def distZero : Nat → Nat → Int := fun _ _ => 0

/-! ## Concrete selection scenarios

Candidates are identified by `Nat` ids (Python `Channel` objects compare by
identity, so distinct candidates are distinct values).  `exOcc` gives
occupancy 9 to candidates 0 and 1 and occupancy 0 to candidate 2; all three
candidate distances are 0, so candidate 2 is the unique candidate of minimal
score `0 + 0 = 0` (the others score 9) and also has the minimal raw distance
among score-minimal candidates.  `randLo`, `randOne` and `randHi` are three
legitimate behaviours of `random.randint(a, b)` (whose result lies in the
inclusive range `[a, b]`). -/

def exOcc : Nat → Int := fun c => if c = 2 then 0 else 9

def exChannels : List (Int × Nat) := [(0, 0), (0, 1), (0, 2)]

def randLo : Nat → Nat → Nat := fun lo _ => lo

def randHi : Nat → Nat → Nat := fun _ hi => hi

def randOne : Nat → Nat → Nat := fun _ _ => 1

def occZero : Nat → Int := fun _ => 0

def tieChannels : List (Int × Nat) := [(1, 0), (1, 1)]

/-! ## Path scoring -/

/-- The per-hop penalty accumulated from hop `j` is the indexed sum of
`max(occupancy(c_i) − (j+i), 0)` over the remaining hops. -/
theorem pathPenalty_eq_sum {C : Type} (occ : C → Int) (path : List C) :
    ∀ j : Nat, pathPenalty occ j path
      = ∑ i : Fin path.length,
          max (occ (path.get i) - ((j : Int) + (i.val : Int))) 0 := by
  induction path with
  | nil => intro j; simp [pathPenalty]
  | cons c rest ih =>
    intro j
    rw [pathPenalty, ih (j + 1)]
    show _ = ∑ i : Fin (rest.length + 1),
      max (occ ((c :: rest).get i) - ((j : Int) + (i.val : Int))) 0
    rw [Fin.sum_univ_succ]
    have hsum : ∑ i : Fin rest.length,
        max (occ (rest.get i) - (((j + 1 : Nat) : Int) + (i.val : Int))) 0
      = ∑ i : Fin rest.length,
        max (occ ((c :: rest).get i.succ)
          - ((j : Int) + ((i.succ).val : Int))) 0 := by
      apply Finset.sum_congr rfl
      intro i _
      have hg : (c :: rest).get i.succ = rest.get i := rfl
      rw [hg]
      congr 1
      push_cast [Fin.val_succ]
      ring
    rw [hsum]
    congr 1

/-- The penalty is a sum of values that are each at least 0. -/
theorem pathPenalty_nonneg {C : Type} (occ : C → Int) (path : List C) :
    ∀ j : Nat, 0 ≤ pathPenalty occ j path := by
  induction path with
  | nil => intro j; simp [pathPenalty]
  | cons c rest ih =>
    intro j
    rw [pathPenalty]
    exact add_nonneg (le_max_right _ _) (ih (j + 1))

/-- C7: for a non-empty path of channels c_0, ..., c_{n-1},
`compute_path_score` returns `n + Σ_i max(occupancy(c_i) − i, 0)`; a
single-hop path with occupancy 0 scores exactly 1; and a path in which every
channel's occupancy is at most its hop index scores exactly its length. -/
theorem c7_compute_path_score_formula {C : Type} (occ : C → Int)
    (path : List C) (_hne : path ≠ []) :
    compute_path_score occ path
      = (path.length : Int)
        + ∑ i : Fin path.length, max (occ (path.get i) - (i.val : Int)) 0 ∧
    (∀ c : C, occ c = 0 → compute_path_score occ [c] = 1) ∧
    ((∀ i : Fin path.length, occ (path.get i) ≤ (i.val : Int)) →
      compute_path_score occ path = (path.length : Int)) := by
  have hform : compute_path_score occ path
      = (path.length : Int)
        + ∑ i : Fin path.length, max (occ (path.get i) - (i.val : Int)) 0 := by
    rw [compute_path_score, pathPenalty_eq_sum occ path 0]
    simp
  refine ⟨hform, ?_, ?_⟩
  · intro c hc
    simp [compute_path_score, pathPenalty, hc]
  · intro hocc
    rw [hform]
    have hz : ∑ i : Fin path.length,
        max (occ (path.get i) - (i.val : Int)) 0 = 0 := by
      apply Finset.sum_eq_zero
      intro i _
      have h := hocc i
      have hle : occ (path.get i) - (i.val : Int) ≤ 0 := by omega
      exact max_eq_right hle
    rw [hz, add_zero]

/-- C7 witness: on the one-element path `[7]` with all-zero occupancy the
formula gives score `1 = length`. -/
theorem c7_compute_path_score_formula_witness :
    compute_path_score occZero [7] = (([7] : List Nat).length : Int) :=
  (c7_compute_path_score_formula occZero [7] (by decide)).2.2 (by decide)

/-- C10: for every non-empty path the score is at least the path's length,
hence at least 1: every per-channel penalty term is non-negative. -/
theorem c10_path_score_at_least_length {C : Type} (occ : C → Int)
    (path : List C) (hne : path ≠ []) :
    (path.length : Int) ≤ compute_path_score occ path ∧
    1 ≤ compute_path_score occ path := by
  have hpen : 0 ≤ pathPenalty occ 0 path := pathPenalty_nonneg occ path 0
  have hlen : 1 ≤ path.length := List.length_pos.mpr hne
  constructor
  · rw [compute_path_score]
    omega
  · rw [compute_path_score]
    omega

/-- C10 witness: on the concrete path `[7]` with all-zero occupancy the
score is bounded below by the length 1. -/
theorem c10_path_score_at_least_length_witness :
    ((([7] : List Nat).length : Int) ≤ compute_path_score occZero [7]) ∧
    1 ≤ compute_path_score occZero [7] :=
  c10_path_score_at_least_length occZero [7] (by decide)

/-! ## Star distances -/

/-- A star with `k1` hubs and `k2` spokes has `k1 + k2` nodes. -/
theorem starDegrees_length (k1 k2 : Nat) :
    (starDegrees k1 k2).length = k1 + k2 := by
  simp [starDegrees]

/-- The hub count computed by the code on the spec-modelled star: all
`k1 + k2` nodes qualify when `k2 ≤ 1` (the graph is then complete), and
exactly the `k1` hubs otherwise. -/
theorem starHubCount_starDegrees (k1 k2 : Nat) :
    starHubCount (starDegrees k1 k2) = if k2 ≤ 1 then k1 + k2 else k1 := by
  unfold starHubCount
  rw [starDegrees_length]
  unfold starDegrees
  rw [List.filter_append, List.length_append, List.filter_replicate,
    List.filter_replicate]
  by_cases hk2 : k2 ≤ 1
  · rw [if_pos hk2]
    interval_cases k2 <;> simp
  · rw [if_neg hk2]
    have hp1 : (decide (k1 + k2 - 1 = k1 + k2 - 1)) = true := by simp
    have hp2 : (decide (k1 = k1 + k2 - 1)) = false := by
      simp
      omega
    rw [hp1, hp2]
    simp

/-- On the spec-modelled star, an address is a hub (channel count equal to
total minus 1) exactly when it lies below the hub count the code computes:
the code's `range(k1)` membership test agrees with the per-node degree
test. -/
theorem isHubAt_starDegrees_iff (k1 k2 a : Nat) (ha : a < k1 + k2) :
    isHubAt (starDegrees k1 k2) a ↔ a < starHubCount (starDegrees k1 k2) := by
  rw [starHubCount_starDegrees]
  unfold isHubAt
  rw [starDegrees_length]
  unfold starDegrees
  rw [List.getElem?_append, List.length_replicate]
  by_cases hk2 : k2 ≤ 1
  · rw [if_pos hk2]
    rcases Nat.lt_or_ge a k1 with hlt | hge
    · rw [if_pos hlt, List.getElem?_replicate, if_pos hlt]
      simp
      omega
    · rw [if_neg (by omega), List.getElem?_replicate, if_pos (by omega)]
      simp
      omega
  · rw [if_neg hk2]
    rcases Nat.lt_or_ge a k1 with hlt | hge
    · rw [if_pos hlt, List.getElem?_replicate, if_pos hlt]
      simp
      omega
    · rw [if_neg (by omega), List.getElem?_replicate, if_pos (by omega)]
      simp
      omega

/-- C6: on every star network (spec-modelled construction: `k1` hubs then
`k2` spokes) and all addresses `a, b` in it, `get_distance` is in {0,1,2};
it is 0 iff `a = b`; for `a ≠ b` it is 1 iff at least one of `a, b` is a
hub — a node whose channel count equals total node count minus 1 — and 2
otherwise. -/
theorem c6_star_distance (k1 k2 a b : Nat) (ha : a < k1 + k2)
    (hb : b < k1 + k2) :
    star_get_distance (starDegrees k1 k2) (a : Int) (b : Int) ≤ 2 ∧
    (star_get_distance (starDegrees k1 k2) (a : Int) (b : Int) = 0 ↔
      a = b) ∧
    (a ≠ b →
      (star_get_distance (starDegrees k1 k2) (a : Int) (b : Int) = 1 ↔
        (isHubAt (starDegrees k1 k2) a ∨ isHubAt (starDegrees k1 k2) b))) ∧
    (a ≠ b →
      ¬(isHubAt (starDegrees k1 k2) a ∨ isHubAt (starDegrees k1 k2) b) →
      star_get_distance (starDegrees k1 k2) (a : Int) (b : Int) = 2) := by
  have hA := isHubAt_starDegrees_iff k1 k2 a ha
  have hB := isHubAt_starDegrees_iff k1 k2 b hb
  unfold star_get_distance
  by_cases hab : a = b
  · subst hab
    simp
  · have hne : (a : Int) ≠ (b : Int) := by exact_mod_cast hab
    rw [if_neg hne]
    have hcond : ((0 ≤ (b : Int) ∧
          (b : Int) < (starHubCount (starDegrees k1 k2) : Int)) ∨
        (0 ≤ (a : Int) ∧
          (a : Int) < (starHubCount (starDegrees k1 k2) : Int))) ↔
        (isHubAt (starDegrees k1 k2) a ∨ isHubAt (starDegrees k1 k2) b) := by
      rw [hA, hB]
      omega
    by_cases h : (0 ≤ (b : Int) ∧
          (b : Int) < (starHubCount (starDegrees k1 k2) : Int)) ∨
        (0 ≤ (a : Int) ∧
          (a : Int) < (starHubCount (starDegrees k1 k2) : Int))
    · rw [if_pos h]
      refine ⟨by norm_num, by simp [hab], ?_, ?_⟩
      · intro _
        simp [hcond.mp h]
      · intro _ hcon
        exact absurd (hcond.mp h) hcon
    · rw [if_neg h]
      refine ⟨by norm_num, by simp [hab], ?_, ?_⟩
      · intro _
        constructor
        · intro hcontra
          exact absurd hcontra (by norm_num)
        · intro hhub
          exact absurd (hcond.mpr hhub) h
      · intro _ _
        rfl

/-- C6 witness: in the star with one hub and three spokes, the spoke-to-
spoke distance between addresses 1 and 2 obeys the claim (it is 2). -/
theorem c6_star_distance_witness :
    star_get_distance (starDegrees 1 3) ((1 : Nat) : Int) ((2 : Nat) : Int)
        ≤ 2 ∧
    (star_get_distance (starDegrees 1 3) ((1 : Nat) : Int) ((2 : Nat) : Int)
        = 0 ↔ (1 : Nat) = (2 : Nat)) ∧
    ((1 : Nat) ≠ (2 : Nat) →
      (star_get_distance (starDegrees 1 3) ((1 : Nat) : Int)
          ((2 : Nat) : Int) = 1 ↔
        (isHubAt (starDegrees 1 3) 1 ∨ isHubAt (starDegrees 1 3) 2))) ∧
    ((1 : Nat) ≠ (2 : Nat) →
      ¬(isHubAt (starDegrees 1 3) 1 ∨ isHubAt (starDegrees 1 3) 2) →
      star_get_distance (starDegrees 1 3) ((1 : Nat) : Int)
        ((2 : Nat) : Int) = 2) :=
  c6_star_distance 1 3 1 2 (by decide) (by decide)

/-- C2: claimed — `greedy_channel_select` always returns a candidate of
minimal score, and of minimal raw distance among the score-minimal ones,
with every other candidate excluded before the random tie-break.  The code
violates this: on the candidates `[(0, c0), (0, c1), (0, c2)]` with
occupancies 9, 9, 0, the unique score-minimal candidate is `c2` (score 0;
the minimum of the scores 9, 9, 0), yet the first in-place filtering pass
removes `(0, c0)` while iterating, skips over `(0, c1)` (the classic
remove-while-iterating slip), leaves `[(0, c1), (0, c2)]`, the second pass
removes nothing (all raw distances are 0), and the random tie-break can then
return `c1`, whose score is 9, not the minimum 0. -/
theorem c2_select_returns_nonminimal :
    greedy_channel_select exOcc randLo exChannels = .ok 1 ∧
    (0 + exOcc 1 = 9 ∧ 0 + exOcc 2 = 0) ∧
    (exChannels.filter (fun dc => decide (dc.1 + exOcc dc.2 = 0))).length
      = 1 := by
  refine ⟨by rfl, ⟨by decide, by decide⟩, by rfl⟩

/-- C3: claimed — with two or more candidates tied after both stages, the
selection returns one of them and never raises.  The code violates this:
`random.randint(0, len(channels))` has an inclusive upper bound, so with the
two tied candidates `[(1, c0), (1, c1)]` (equal scores, equal distances) a
draw of 2 makes `channels[2]` raise `IndexError`. -/
theorem c3_tie_break_index_error :
    greedy_channel_select occZero randHi tieChannels = .error () ∧
    tieChannels.length = 2 ∧
    (1 + occZero 0 = 1 + occZero 1) := by
  refine ⟨by rfl, by rfl, by decide⟩

/-- C8: claimed — whenever exactly one candidate achieves both minima, the
selection is independent of the random source.  The code violates this: on
`exChannels` (where candidate 2 alone has the minimal score 0 and the
minimal distance, see `c2_select_returns_nonminimal`), the surviving pool
after the buggy in-place filtering is `[(0, c1), (0, c2)]`, so the random
draw still decides: a draw of 0 yields candidate 1 and a draw of 1 yields
candidate 2 — two different results for identical inputs. -/
theorem c8_unique_winner_not_deterministic :
    greedy_channel_select exOcc randLo exChannels = .ok 1 ∧
    greedy_channel_select exOcc randOne exChannels = .ok 2 ∧
    (exChannels.filter
      (fun dc => decide (dc.1 + exOcc dc.2 = 0))).length = 1 := by
  refine ⟨by rfl, by rfl, by rfl⟩

/-- C9: claimed — the tie-break filtering builds new filtered sequences and
leaves the candidate list passed in unchanged.  The code violates this: the
two filtering stages call `channels.remove(...)` on the very list object the
caller passed (and iterate it while doing so), so after the call on
`exChannels` the caller's list holds `[(0, 1), (0, 2)]`, not the three
candidates passed in.  `(pySelectCore ...).1` is the final state of the
Python `channels` variable. -/
theorem c9_candidate_list_mutated :
    (pySelectCore (fun dc => dc.1 + exOcc dc.2) (fun dc => dc.1)
        randLo exChannels).1 = [(0, 1), (0, 2)] ∧
    (pySelectCore (fun dc => dc.1 + exOcc dc.2) (fun dc => dc.1)
        randLo exChannels).1 ≠ exChannels := by
  refine ⟨by rfl, by decide⟩

/-- C1: claimed — for every ring of size k ≥ 2 and addresses a, b in [0,k),
`get_distance(a,b) = min(|b-a|, k-|b-a|)`, symmetric, never negative.
The code violates this: on a 5-node ring, `get_distance(3, 1)` evaluates to
`-2` (the `else` branch at line 66 returns the raw difference `n2 - n1`),
while the specified distance is `2`, and `get_distance(1, 3) = 2`, so the
function is neither correct, nor non-negative, nor symmetric. -/
theorem c1_ring_distance_negative :
    ring_get_distance 5 3 1 = -2 ∧
    ring_distance_spec 5 3 1 = 2 ∧
    ring_get_distance 5 1 3 = 2 := by
  refine ⟨?_, ?_, ?_⟩ <;> decide

/-- C4: claimed — torus distance is the sum of two ring distances, each
computed with that axis's own modulus.  The code violates this: it uses
`len(self._nodes)` (the total node count, k² for a k×k torus) as the modulus
on both axes.  On a 3×3 torus (9 nodes), the distance from (0,0) to (2,0) is
computed as 2, while the per-axis-modulus formula of the spec gives
`ring_distance(0,2) + ring_distance(0,0) = 1 + 0 = 1` with modulus 3. -/
theorem c4_torus_distance_wrong_modulus :
    torus_get_distance 9 (0, 0) (2, 0) = 2 ∧
    ring_distance_spec 3 0 2 + ring_distance_spec 3 0 0 = 1 := by
  exact ⟨by decide, by decide⟩

/-! ## Routing: `route_packet` -/

/-- A successful association-list lookup means the key/value pair is in the
list. -/
theorem lookup_mem [DecidableEq α] {l : List (α × β)} {a : α} {b : β}
    (h : l.lookup a = some b) : (a, b) ∈ l := by
  induction l with
  | nil => simp [List.lookup] at h
  | cons p rest ih =>
    obtain ⟨k, v⟩ := p
    rw [List.lookup] at h
    by_cases hk : a = k
    · subst hk
      simp only [beq_self_eq_true] at h
      simp at h
      subst h
      exact List.mem_cons_self _ _
    · simp only [beq_eq_false_iff_ne.mpr hk] at h
      exact List.mem_cons_of_mem _ (ih h)

/-- In a well-formed network, the channel stored at node `a` under neighbour
key `nb` is the undirected link between `a` and `nb`. -/
theorem validB_endpoints [DecidableEq α] {net : Network α}
    (h : net.validB = true) {a : α} {node : Node α}
    (hn : net.nodes.lookup a = some node) {nb : α} {ch : Channel α}
    (hc : node.channels.lookup nb = some ch) :
    (ch.ep1 = a ∧ ch.ep2 = nb) ∨ (ch.ep1 = nb ∧ ch.ep2 = a) := by
  have hmem := lookup_mem hn
  have hmem2 := lookup_mem hc
  rw [Network.validB, List.all_eq_true] at h
  have h1 := h _ hmem
  rw [List.all_eq_true] at h1
  have h2 := h1 _ hmem2
  simpa using h2

/-- The remove-while-iterating loop only ever deletes elements: its result
is a sub-collection of its input. -/
theorem pyRemoveAux_subset [DecidableEq β] (p : β → Bool) :
    ∀ (fuel : Nat) (lst : List β) (i : Nat),
      pyRemoveAux p fuel lst i ⊆ lst := by
  intro fuel
  induction fuel with
  | zero =>
    intro lst i
    simp [pyRemoveAux]
  | succ fuel ih =>
    intro lst i
    simp only [pyRemoveAux]
    split
    · split
      · exact (ih _ _).trans (List.erase_subset _ _)
      · exact ih _ _
    · exact List.Subset.refl _

/-- Same statement for the loop run from cursor 0. -/
theorem pyRemoveLoop_subset [DecidableEq β] (p : β → Bool) (lst : List β) :
    pyRemoveLoop p lst ⊆ lst :=
  pyRemoveAux_subset p lst.length lst 0

/-- The first filtering stage keeps a sub-collection of the candidates. -/
theorem stageOne_subset [DecidableEq β] (score key : β → Int) (b0 : β)
    (lst : List β) : stageOne score key b0 lst ⊆ lst :=
  pyRemoveLoop_subset _ _

/-- Both filtering stages together keep a sub-collection of the
candidates. -/
theorem selectFiltered_subset [DecidableEq β] (score key : β → Int) (b0 : β)
    (lst : List β) : selectFiltered score key b0 lst ⊆ lst := by
  unfold selectFiltered
  split
  · exact (pyRemoveLoop_subset _ _).trans (stageOne_subset score key b0 lst)
  · exact stageOne_subset score key b0 lst

/-- Unfolding equation of the selector on a non-empty candidate list. -/
theorem pySelect_cons [DecidableEq β] (score key : β → Int)
    (rand : Nat → Nat → Nat) (b0 : β) (rest : List β) :
    pySelect score key rand (b0 :: rest) =
      if _h : 1 < (selectFiltered score key b0 (b0 :: rest)).length then
        if h2 : rand 0 (selectFiltered score key b0 (b0 :: rest)).length <
            (selectFiltered score key b0 (b0 :: rest)).length then
          .ok ((selectFiltered score key b0 (b0 :: rest)).get
            ⟨rand 0 (selectFiltered score key b0 (b0 :: rest)).length, h2⟩)
        else .error ()
      else
        match (selectFiltered score key b0 (b0 :: rest)).head? with
        | none => .error ()
        | some b => .ok b := rfl

/-- Whatever the selector returns without raising is one of the candidates
that were passed in. -/
theorem pySelect_ok_mem [DecidableEq β] {score key : β → Int}
    {rand : Nat → Nat → Nat} {lst : List β} {b : β}
    (h : pySelect score key rand lst = .ok b) : b ∈ lst := by
  cases lst with
  | nil => simp [pySelect, pySelectCore] at h
  | cons b0 rest =>
    rw [pySelect_cons] at h
    by_cases h1 : 1 < (selectFiltered score key b0 (b0 :: rest)).length
    · rw [dif_pos h1] at h
      by_cases h2 : rand 0 (selectFiltered score key b0 (b0 :: rest)).length <
          (selectFiltered score key b0 (b0 :: rest)).length
      · rw [dif_pos h2] at h
        simp only [Except.ok.injEq] at h
        subst h
        exact selectFiltered_subset score key b0 (b0 :: rest)
          (List.get_mem _ _ _)
      · rw [dif_neg h2] at h
        simp at h
    · rw [dif_neg h1] at h
      cases hL : (selectFiltered score key b0 (b0 :: rest)).head? with
      | none =>
        rw [hL] at h
        simp at h
      | some bh =>
        rw [hL] at h
        simp only [Except.ok.injEq] at h
        subst h
        exact selectFiltered_subset score key b0 (b0 :: rest)
          (List.mem_of_mem_head? hL)

/-- Every candidate the `GreedyChannel*` loop builds pairs a distance with a
channel incident to the current address (by well-formedness, the channel a
neighbour stores under `current_address` links the neighbour to the current
node). -/
theorem buildCandidates_incident [DecidableEq α] {net : Network α}
    {current dest : α} {dist : α → α → Int} (hvalid : net.validB = true) :
    ∀ (l : List (α × Channel α)) (lst : List (Int × Channel α)),
      buildCandidates net current dest dist l = .ok lst →
      ∀ dc ∈ lst, ChannelIncident dc.2 current := by
  intro l
  induction l with
  | nil =>
    intro lst h dc hdc
    simp only [buildCandidates, Except.ok.injEq] at h
    subst h
    simp at hdc
  | cons nb rest ih =>
    intro lst h dc hdc
    rw [buildCandidates] at h
    cases hn : net.nodes.lookup nb.1 with
    | none => rw [hn] at h; simp at h
    | some node =>
      rw [hn] at h
      dsimp only at h
      cases hc : node.channels.lookup current with
      | none => rw [hc] at h; simp at h
      | some channel =>
        rw [hc] at h
        dsimp only at h
        cases hb : buildCandidates net current dest dist rest with
        | error e => rw [hb] at h; simp at h
        | ok lst2 =>
          rw [hb] at h
          dsimp only at h
          simp only [Except.ok.injEq] at h
          subst h
          rcases List.mem_cons.mp hdc with heq | hmem
          · subst heq
            rcases validB_endpoints hvalid hn hc with hep | hep
            · exact Or.inr hep.2
            · exact Or.inl hep.1
          · exact ih lst2 hb dc hmem

/-- C5 (amended): for every strategy variant — any distance metric for the
channel mode, any path enumerator whose paths start at the current address
for the path mode — and every call of `route_packet` that returns at all
(the randomized tie-break can instead raise `IndexError`, see the C3
counterexample), the result is `None` exactly when the current address
equals the packet's destination, and otherwise a channel that has the node
at the current address as one of its endpoints. -/
theorem c5_route_packet_amended :
    (∀ {α : Type} [DecidableEq α] (net : Network α) (dist : α → α → Int)
        (rand : Nat → Nat → Nat) (current : α) (pkt : Packet α)
        (r : Option (Channel α)),
      net.validB = true →
      route_packet_channel net dist rand current pkt = .ok r →
      ((r = none ↔ current = pkt.destination) ∧
        ∀ c, r = some c → ChannelIncident c current)) ∧
    (∀ {α : Type} [DecidableEq α]
        (findPaths : α → α → List (List (Channel α)))
        (rand : Nat → Nat → Nat) (current : α) (pkt : Packet α)
        (r : Option (Channel α)),
      (∀ p ∈ findPaths current pkt.destination,
        ∃ c rest, p = c :: rest ∧ ChannelIncident c current) →
      route_packet_path findPaths rand current pkt = .ok r →
      ((r = none ↔ current = pkt.destination) ∧
        ∀ c, r = some c → ChannelIncident c current)) := by
  constructor
  · intro α _ net dist rand current pkt r hvalid hrun
    rw [route_packet_channel] at hrun
    by_cases hcd : current = pkt.destination
    · rw [if_pos hcd] at hrun
      simp only [Except.ok.injEq] at hrun
      subst hrun
      exact ⟨by simp [hcd], by intro c hc; simp at hc⟩
    · rw [if_neg hcd] at hrun
      cases hn : net.nodes.lookup current with
      | none => rw [hn] at hrun; simp at hrun
      | some currNode =>
        rw [hn] at hrun
        dsimp only at hrun
        cases hb : buildCandidates net current pkt.destination dist
            currNode.channels with
        | error e => rw [hb] at hrun; simp at hrun
        | ok lst =>
          rw [hb] at hrun
          dsimp only at hrun
          cases hs : greedy_channel_select (fun c => (c.occupancy : Int))
              rand lst with
          | error e => rw [hs] at hrun; simp [Except.map] at hrun
          | ok c =>
            rw [hs] at hrun
            simp only [Except.map, Except.ok.injEq] at hrun
            subst hrun
            refine ⟨by simp [hcd], ?_⟩
            intro c2 hc2
            simp only [Option.some.injEq] at hc2
            subst hc2
            rw [greedy_channel_select] at hs
            cases hps : pySelect
                (fun dc => dc.1 + ((fun c => (c.occupancy : Int)) dc.2))
                (fun dc => dc.1) rand lst with
            | error e => rw [hps] at hs; simp [Except.map] at hs
            | ok dc =>
              rw [hps] at hs
              simp only [Except.map, Except.ok.injEq] at hs
              subst hs
              exact buildCandidates_incident hvalid _ _ hb dc
                (pySelect_ok_mem hps)
  · intro α _ findPaths rand current pkt r hpaths hrun
    rw [route_packet_path] at hrun
    by_cases hcd : current = pkt.destination
    · rw [if_pos hcd] at hrun
      simp only [Except.ok.injEq] at hrun
      subst hrun
      exact ⟨by simp [hcd], by intro c hc; simp at hc⟩
    · rw [if_neg hcd] at hrun
      cases hs : greedy_path_select (fun c => (c.occupancy : Int)) rand
          (findPaths current pkt.destination) with
      | error e => rw [hs] at hrun; simp [Except.map] at hrun
      | ok c =>
        rw [hs] at hrun
        simp only [Except.map, Except.ok.injEq] at hrun
        subst hrun
        refine ⟨by simp [hcd], ?_⟩
        intro c2 hc2
        simp only [Option.some.injEq] at hc2
        subst hc2
        rw [greedy_path_select] at hs
        cases hps : pySelect
            (compute_path_score (fun c => (c.occupancy : Int)))
            (fun p => (p.length : Int)) rand
            (findPaths current pkt.destination) with
        | error e => rw [hps] at hs; simp at hs
        | ok p =>
          rw [hps] at hs
          dsimp only at hs
          cases p with
          | nil => simp at hs
          | cons c0 tl =>
            simp only [Except.ok.injEq] at hs
            subst hs
            obtain ⟨cx, restx, hpx, hinc⟩ :=
              hpaths _ (pySelect_ok_mem hps)
            injection hpx with h1 _
            rw [h1]
            exact hinc

/-- C5 counterexample to the claim as stated: on the 4-node ring at current
address 1 with destination 3 (both neighbours tied at distance 1 and
occupancy 0), the legitimate random draw of the inclusive upper bound makes
`route_packet` raise `IndexError` instead of returning an incident channel,
so "otherwise it returns a channel incident to the current address" does
not hold unconditionally. -/
theorem c5_route_packet_cex :
    ringNet4.validB = true ∧
    (1 : Nat) ≠ cexPkt.destination ∧
    route_packet_channel ringNet4 ringDist4 randHi 1 cexPkt = .error () :=
  ⟨by decide, by decide, by decide⟩

/-- C5 witness: on the 2-node network, routing from 0 to 1 in channel mode
and from 1 to 0 in path mode both return the sole channel, which is
incident to the current address. -/
theorem c5_route_packet_amended_witness :
    ((some chA = none ↔ (0 : Nat) = wPkt.destination) ∧
      ∀ c, some chA = some c → ChannelIncident c (0 : Nat)) ∧
    ((some chA = none ↔ (1 : Nat) = wPkt2.destination) ∧
      ∀ c, some chA = some c → ChannelIncident c (1 : Nat)) :=
  ⟨c5_route_packet_amended.1 pairNet distZero randLo 0 wPkt (some chA)
      (by decide) (by decide),
    c5_route_packet_amended.2 wFindPaths randLo 1 wPkt2 (some chA)
      (by
        intro p hp
        simp only [wFindPaths, List.mem_singleton] at hp
        subst hp
        exact ⟨chA, [], rfl, Or.inr rfl⟩)
      (by decide)⟩
